import Mathlib

/-!
Shallow embedding of the pin-lifecycle subsystem of the Temporal repository:
the uploads ledger (`models/upload.go`), its garbage-collection sweep, and the
private-network / cluster request handlers, together with theorems settling
the specification claims about them.

Modelling conventions:
* `time.Time` values are only ever compared through `.Unix()` in the embedded
  code, so time is modelled as `Int` unix seconds, with the current time
  passed explicitly where the Go code calls `time.Now()`.
* The gorm database handle is modelled as an explicit list of rows plus a
  surrogate-id counter; gorm operations (`Where ... First`, `Create`, `Save`,
  `Delete`, `Find`) are translated to list operations keyed the way gorm keys
  them (primary key `id` for `Save`/`Delete`).
* Fallible external calls (gorm errors, broker availability, CID decoding)
  are modelled by explicit error parameters / oracle functions, so that each
  error-return branch of the Go code is represented.
-/

namespace Temporal

/-- Unix-seconds timestamp, the image of `time.Time` under `.Unix()`. -/
abbrev UnixTime := Int

/-- The `Upload` model of `models/upload.go`: one ledger row per upload.
`id` is the gorm surrogate primary key from the embedded `gorm.Model`. -/
structure Upload where
  id : Nat
  hash : String
  uploadType : String
  name : String
  networkName : String
  holdTimeInMonths : Int
  userName : String
  garbageCollectDate : UnixTime
  userNames : List String
deriving Repr, DecidableEq

/-- The uploads table behind `UploadManager.DB`: its rows and the next
surrogate id gorm would assign on `Create`. -/
structure DB where
  records : List Upload
  nextId : Nat
deriving Repr, DecidableEq

/-- Seconds in the fixed-length month used by the time model. -/
def monthSeconds : Int := 2592000

/-- Modelled from the spec: `utils.CalculateGarbageCollectDate` is code of
this repository that is not under src/ (only its caller `models/upload.go`
is).  Spec §4.3: "garbageCollectAt = now + holdMonths months".  Months are
modelled with a fixed length; every claim settled against this definition
depends only on the ordering of computed dates, and the fixed-length month
orders dates exactly as calendar month addition does (both are strictly
monotone in `now` and in `holdMonths`). -/
def CalculateGarbageCollectDate (now : UnixTime) (holdTimeInMonths : Int) : UnixTime :=
  now + holdTimeInMonths * monthSeconds

/-- The row filter of `FindUploadByHashAndNetworkAndUser`:
`hash = ? AND network_name = ? AND user_name = ?`. -/
def uploadMatches (hash networkName username : String) (u : Upload) : Bool :=
  u.hash == hash && u.networkName == networkName && u.userName == username

/-- Embeds `FindUploadByHashAndNetworkAndUser`: gorm `Where(...).First`, the first
row matching the (hash, network, user) triple; `none` models the
record-not-found error. -/
def FindUploadByHashAndNetworkAndUser (db : DB) (hash networkName username : String) :
    Option Upload :=
  db.records.find? (uploadMatches hash networkName username)

/-- The Go round trip `strconv.Atoi(fmt.Sprintf("%+v", holdTimeInMonths))`
(and the `"%v"` variant in `UpdateUpload`): formatting an `int64` and parsing
it back always succeeds and yields the same integer, so the round trip is
`some n`; the `Option` keeps the error-check branch of the source visible. -/
def atoiRoundTrip (n : Int) : Option Int := some n

/-- gorm `Save`: update the row whose primary key equals `u.id`. -/
def dbSave (db : DB) (u : Upload) : DB :=
  { db with records := db.records.map (fun r => if r.id == u.id then u else r) }

/-- gorm `Delete(&v)`: delete the rows whose primary key equals `id`. -/
def dbDeleteById (db : DB) (id : Nat) : DB :=
  { db with records := db.records.filter (fun r => r.id != id) }

/-- The row literal `NewUpload` constructs before calling `DB.Create`. -/
def newUploadRow (id : Nat) (now : UnixTime)
    (contentHash uploadType networkName username name : String)
    (holdTimeInMonths holdInt : Int) : Upload :=
  { id := id
    hash := contentHash
    uploadType := uploadType
    name := name
    networkName := networkName
    holdTimeInMonths := holdTimeInMonths
    userName := username
    garbageCollectDate := CalculateGarbageCollectDate now holdInt
    userNames := [username] }

/-- Embeds `UploadManager.NewUpload`, Go-style result: (record pointer, error, db
after the call).  `createErr` models a `DB.Create` failure. -/
def NewUpload (db : DB) (now : UnixTime)
    (contentHash uploadType networkName username name : String)
    (holdTimeInMonths : Int) (createErr : Option String) :
    Option Upload × Option String × DB :=
  match FindUploadByHashAndNetworkAndUser db contentHash networkName username with
  | some _ =>
    (none, some "attempting to create new upload entry when one already exists in database", db)
  | none =>
    match atoiRoundTrip holdTimeInMonths with
    | none => (none, some "atoi error", db)
    | some holdInt =>
      let upload : Upload :=
        newUploadRow db.nextId now contentHash uploadType networkName username name
          holdTimeInMonths holdInt
      match createErr with
      | some e => (none, some e, db)
      | none => (some upload, none, { records := db.records ++ [upload], nextId := db.nextId + 1 })

/-- Embeds `UploadManager.UpdateUpload`, Go-style result: (record pointer, error, db
after the call).  `saveErr` models a `DB.Save` failure; note that the source
returns `nil, err` on that branch, where `err` is the (nil) error left over
from the successful `strconv.Atoi` call, and that inside the
`newGcd.Unix() > oldGcd.Unix()` branch the source assigns the old
`GarbageCollectDate` back. -/
def UpdateUpload (db : DB) (now : UnixTime) (holdTimeInMonths : Int)
    (username contentHash networkName : String) (saveErr : Option String) :
    Option Upload × Option String × DB :=
  match FindUploadByHashAndNetworkAndUser db contentHash networkName username with
  | none => (none, some "record not found", db)
  | some upload0 =>
    let upload1 := { upload0 with userName := username }
    let isUploader := upload1.userNames.contains username
    let upload2 :=
      if isUploader then upload1
      else { upload1 with userNames := upload1.userNames ++ [username] }
    match atoiRoundTrip holdTimeInMonths with
    | none => (none, some "atoi error", db)
    | some holdInt =>
      let oldGcd := upload2.garbageCollectDate
      let newGcd := CalculateGarbageCollectDate now holdInt
      let upload3 :=
        if newGcd > oldGcd then
          { upload2 with holdTimeInMonths := holdTimeInMonths, garbageCollectDate := oldGcd }
        else upload2
      match saveErr with
      | some _ => (none, none, db)
      | none => (some upload3, none, dbSave db upload3)

/-- A ledger row for content "Qm123" on the public network held by alice,
with a stored garbage-collect date of 100. -/
def recQm : Upload :=
  { id := 1
    hash := "Qm123"
    uploadType := "pin"
    name := ""
    networkName := "public"
    holdTimeInMonths := 1
    userName := "alice"
    garbageCollectDate := 100
    userNames := ["alice"] }

/-- A ledger holding exactly `recQm`. -/
def dbQm : DB := { records := [recQm], nextId := 2 }

/-- On a found record, `UpdateUpload` leaves the database unchanged (save
failure) or saves a row `u3` that keeps the found record's primary key and
its stored `garbageCollectDate`: both branches of the
`newGcd.Unix() > oldGcd.Unix()` comparison write the old date back. -/
theorem updateUpload_found_shape
    (db : DB) (now : UnixTime) (hold : Int) (u h n : String) (se : Option String)
    (r : Upload) (hfind : FindUploadByHashAndNetworkAndUser db h n u = some r) :
    ∃ u3 : Upload, u3.id = r.id ∧ u3.garbageCollectDate = r.garbageCollectDate ∧
      ((UpdateUpload db now hold u h n se).2.2 = db ∨
       (UpdateUpload db now hold u h n se).2.2 = dbSave db u3) := by
  unfold UpdateUpload
  rw [hfind]
  simp only [atoiRoundTrip]
  cases se with
  | some e => exact ⟨r, rfl, rfl, Or.inl rfl⟩
  | none =>
    refine ⟨_, ?_, ?_, Or.inr rfl⟩
    · split <;> split <;> rfl
    · split <;> split <;> rfl

/-- C1: renewing with a strictly later computed garbage-collect date is
claimed to store the new, later date; on the code the stored date stays at
the old value while `holdTimeInMonths` is still updated.  Concretely: with
stored date 100, a renewal at time 1000 with hold 3 computes a candidate
strictly later than 100, yet the saved row keeps date 100. -/
theorem updateUpload_later_candidate_keeps_old_date :
    CalculateGarbageCollectDate 1000 3 > recQm.garbageCollectDate ∧
    UpdateUpload dbQm 1000 3 "alice" "Qm123" "public" none =
      (some { recQm with holdTimeInMonths := 3 }, none,
        { records := [{ recQm with holdTimeInMonths := 3 }], nextId := 2 }) := by
  constructor
  · decide
  · rfl

/-- C5: a renewal whose computed candidate date is not later than the stored
one leaves the stored `garbageCollectDate` unchanged, and across renewals the
stored date never decreases (on the code it never changes at all). -/
theorem updateUpload_gcd_never_decreases
    (db : DB) (now : UnixTime) (hold : Int) (u h n : String) (se : Option String)
    (r r' : Upload)
    (hids : (db.records.map Upload.id).Nodup)
    (hfind : FindUploadByHashAndNetworkAndUser db h n u = some r)
    (hmem : r' ∈ (UpdateUpload db now hold u h n se).2.2.records)
    (hid : r'.id = r.id) :
    (CalculateGarbageCollectDate now hold ≤ r.garbageCollectDate →
      r'.garbageCollectDate = r.garbageCollectDate) ∧
    r.garbageCollectDate ≤ r'.garbageCollectDate := by
  have key : r'.garbageCollectDate = r.garbageCollectDate := by
    obtain ⟨u3, hu3id, hu3gcd, hdb | hdb⟩ :=
      updateUpload_found_shape db now hold u h n se r hfind
    · rw [hdb] at hmem
      have hr : r ∈ db.records := List.mem_of_find?_eq_some hfind
      have : r' = r := List.inj_on_of_nodup_map hids hmem hr hid
      rw [this]
    · rw [hdb] at hmem
      simp only [dbSave, List.mem_map] at hmem
      obtain ⟨x, hx, hxeq⟩ := hmem
      by_cases hc : x.id == u3.id
      · rw [if_pos hc] at hxeq
        rw [← hxeq, hu3gcd]
      · rw [if_neg hc] at hxeq
        exfalso
        apply hc
        rw [← hxeq] at hid
        rw [beq_iff_eq, hid, hu3id]
  exact ⟨fun _ => key, le_of_eq key.symm⟩

/-- Witness for C5 at a concrete renewal on `dbQm`. -/
theorem updateUpload_gcd_never_decreases_witness :
    (CalculateGarbageCollectDate 1000 3 ≤ recQm.garbageCollectDate →
      ({ recQm with holdTimeInMonths := 3 } : Upload).garbageCollectDate =
        recQm.garbageCollectDate) ∧
    recQm.garbageCollectDate ≤
      ({ recQm with holdTimeInMonths := 3 } : Upload).garbageCollectDate :=
  updateUpload_gcd_never_decreases dbQm 1000 3 "alice" "Qm123" "public" none
    recQm { recQm with holdTimeInMonths := 3 } (by decide) rfl (by decide) rfl

/-- C9: when the `DB.Save` step of `UpdateUpload` fails after the record was
found, the function returns a nil record together with a nil error (the
source returns `nil, err` where `err` is the nil error left from the
successful `strconv.Atoi` call). -/
theorem updateUpload_save_failure_nil_nil
    (db : DB) (now : UnixTime) (hold : Int) (u h n : String) (e : String) (r : Upload)
    (hfind : FindUploadByHashAndNetworkAndUser db h n u = some r) :
    (UpdateUpload db now hold u h n (some e)).1 = none ∧
    (UpdateUpload db now hold u h n (some e)).2.1 = none := by
  unfold UpdateUpload
  rw [hfind]
  simp [atoiRoundTrip]

/-- Witness for C9: a failing save on `dbQm` yields nil record and nil error. -/
theorem updateUpload_save_failure_nil_nil_witness :
    (UpdateUpload dbQm 1000 3 "alice" "Qm123" "public" (some "save failed")).1 = none ∧
    (UpdateUpload dbQm 1000 3 "alice" "Qm123" "public" (some "save failed")).2.1 = none :=
  updateUpload_save_failure_nil_nil dbQm 1000 3 "alice" "Qm123" "public" "save failed" recQm rfl

/-- C4: creating an upload for a (hash, network, user) triple that already
has a row fails with the duplicate-record error and returns the ledger
unchanged; in particular a second `NewUpload` with the same triple (any
type, name, hold or create-outcome) fails after a successful first one. -/
theorem newUpload_duplicate_fails_ledger_unchanged
    (db db2 : DB) (now now2 : UnixTime)
    (h t n u nm t2 nm2 : String) (hold hold2 : Int) (ce : Option String) (up : Upload)
    (hfirst : NewUpload db now h t n u nm hold none = (some up, none, db2)) :
    NewUpload db2 now2 h t2 n u nm2 hold2 ce =
      (none, some "attempting to create new upload entry when one already exists in database",
       db2) := by
  unfold NewUpload at hfirst ⊢
  cases hf : FindUploadByHashAndNetworkAndUser db h n u with
  | some x =>
    rw [hf] at hfirst
    simp at hfirst
  | none =>
    rw [hf] at hfirst
    simp only [atoiRoundTrip] at hfirst
    have hdb2 : db2 =
        { records := db.records ++ [newUploadRow db.nextId now h t n u nm hold hold],
          nextId := db.nextId + 1 } := (congrArg (fun p => p.2.2) hfirst).symm
    have hfind2 : FindUploadByHashAndNetworkAndUser db2 h n u =
        some (newUploadRow db.nextId now h t n u nm hold hold) := by
      rw [hdb2]
      unfold FindUploadByHashAndNetworkAndUser at hf ⊢
      rw [List.find?_append, hf, Option.none_or]
      simp [uploadMatches, newUploadRow]
    rw [hfind2]

/-- The empty ledger. -/
def dbEmpty : DB := { records := [], nextId := 1 }

/-- The row a first `NewUpload` of "Qm123" on "public" by alice at time 1000
with hold 1 creates. -/
def createdQm : Upload :=
  { id := 1
    hash := "Qm123"
    uploadType := "pin"
    name := ""
    networkName := "public"
    holdTimeInMonths := 1
    userName := "alice"
    garbageCollectDate := CalculateGarbageCollectDate 1000 1
    userNames := ["alice"] }

/-- The ledger after that first successful `NewUpload`. -/
def dbAfterCreate : DB := { records := [createdQm], nextId := 2 }

/-- Witness for C4: create "Qm123"/"public"/"alice" on the empty ledger, then
create the same triple again; the second call fails with the duplicate error
and returns the ledger unchanged. -/
theorem newUpload_duplicate_fails_ledger_unchanged_witness :
    NewUpload dbAfterCreate 2000 "Qm123" "file" "public" "alice" "other" 5 none =
      (none, some "attempting to create new upload entry when one already exists in database",
       dbAfterCreate) :=
  newUpload_duplicate_fails_ledger_unchanged dbEmpty dbAfterCreate 1000 2000
    "Qm123" "pin" "public" "alice" "" "file" "other" 1 5 none createdQm rfl

/-- Message payloads the request handlers publish to the job queues
(`queue.IPFSPin`, `queue.IPFSPinRemoval`, `queue.IPFSFile`,
`queue.DatabaseFileAdd`, `queue.IPFSClusterPin`). -/
inductive QueueMessage where
  | ipfsPin (cid networkName userName : String) (holdTimeInMonths : Int)
  | ipfsPinRemoval (contentHash networkName userName : String)
  | ipfsFile (bucketName objectName userName networkName holdTimeInMonths : String)
  | databaseFileAdd (hash : String) (holdTimeInMonths : Int) (userName networkName : String)
  | ipfsClusterPin (cid networkName userName : String) (holdTimeInMonths : Int)
deriving Repr, DecidableEq

/-- The per-record loop of `RunDatabaseGarbageCollection` over the snapshot
returned by `DB.Find`: a record is deleted when `time.Now().Unix()` is
strictly greater than its `GarbageCollectDate.Unix()`; a failing
`DB.Delete` (modelled by `delErr`) makes the whole function return the error
immediately. -/
def gcLoop (now : UnixTime) (delErr : Upload → Option String) :
    List Upload → DB → List Upload → Except String (DB × List Upload)
  | [], db, deleted => .ok (db, deleted)
  | v :: rest, db, deleted =>
    if v.garbageCollectDate < now then
      match delErr v with
      | some e => .error e
      | none => gcLoop now delErr rest (dbDeleteById db v.id) (deleted ++ [v])
    else gcLoop now delErr rest db deleted

/-- Embeds `UploadManager.RunDatabaseGarbageCollection`.  Here `findErr` models a
`DB.Find` failure and `delErr` a per-record `DB.Delete` failure.  The result
carries, besides the database after the sweep and the deleted records the Go
function returns, the list of queue messages the sweep publishes; the
function body contains no queue operation, so that list is empty on every
successful run. -/
def RunDatabaseGarbageCollection (db : DB) (now : UnixTime)
    (findErr : Option String) (delErr : Upload → Option String) :
    Except String (DB × List Upload × List QueueMessage) :=
  match findErr with
  | some e => .error e
  | none =>
    match gcLoop now delErr db.records db [] with
    | .error e => .error e
    | .ok (db2, deleted) => .ok (db2, deleted, [])

/-- True when the sweep result is an error. -/
def sweepFailed (r : Except String (DB × List Upload × List QueueMessage)) : Bool :=
  match r with
  | .error _ => true
  | .ok _ => false

/-- With no delete failures, the sweep loop appends every strictly-expired
snapshot record to the accumulator and removes the rows whose primary key
matches a strictly-expired snapshot record. -/
theorem gcLoop_no_failures (now : UnixTime) (l : List Upload) (db : DB) (acc : List Upload) :
    gcLoop now (fun _ => none) l db acc =
      .ok ({ records := db.records.filter (fun r =>
               (l.filter (fun v => decide (v.garbageCollectDate < now))).all
                 (fun v => r.id != v.id)),
             nextId := db.nextId },
           acc ++ l.filter (fun v => decide (v.garbageCollectDate < now))) := by
  induction l generalizing db acc with
  | nil => simp [gcLoop]
  | cons v rest ih =>
    rw [gcLoop]
    by_cases hv : v.garbageCollectDate < now
    · rw [if_pos hv, ih]
      have hfv : (v :: rest).filter (fun w => decide (w.garbageCollectDate < now)) =
          v :: rest.filter (fun w => decide (w.garbageCollectDate < now)) := by
        simp [List.filter_cons, hv]
      rw [hfv]
      simp only [dbDeleteById, List.filter_filter, List.all_cons]
      congr 2
      · congr 1
        apply List.filter_congr
        intro r _
        rw [Bool.and_comm]
      · rw [List.append_assoc]
        rfl
    · rw [if_neg hv, ih]
      have hfv : (v :: rest).filter (fun w => decide (w.garbageCollectDate < now)) =
          rest.filter (fun w => decide (w.garbageCollectDate < now)) := by
        simp [List.filter_cons, hv]
      rw [hfv]

/-- A sweep over a ledger with no strictly-expired record deletes nothing and
returns an empty set. -/
theorem gc_sweep_no_expired (db : DB) (now : UnixTime)
    (h : ∀ v ∈ db.records, ¬ v.garbageCollectDate < now) :
    RunDatabaseGarbageCollection db now none (fun _ => none) = .ok (db, [], []) := by
  unfold RunDatabaseGarbageCollection
  rw [gcLoop_no_failures]
  have hnil : db.records.filter (fun v => decide (v.garbageCollectDate < now)) = [] := by
    simp only [List.filter_eq_nil_iff, decide_eq_true_eq]
    exact h
  rw [hnil]
  simp [List.filter_true]

/-- A ledger row whose garbage-collect date is exactly 500. -/
def recBoundary : Upload :=
  { id := 1
    hash := "QmBoundary"
    uploadType := "pin"
    name := ""
    networkName := "public"
    holdTimeInMonths := 1
    userName := "alice"
    garbageCollectDate := 500
    userNames := ["alice"] }

/-- A ledger holding exactly `recBoundary`. -/
def dbBoundary : DB := { records := [recBoundary], nextId := 2 }

/-- C3 counterexample: at `now = 500` the record with `garbageCollectAt = 500`
satisfies `garbageCollectAt <= now`, so the claim says the sweep deletes and
returns it; the code's strict `time.Now().Unix() > GarbageCollectDate.Unix()`
comparison keeps it and returns an empty set. -/
theorem gc_sweep_boundary_record_survives :
    recBoundary.garbageCollectDate ≤ 500 ∧
    RunDatabaseGarbageCollection dbBoundary 500 none (fun _ => none) =
      .ok (dbBoundary, [], []) := by
  exact ⟨by decide, rfl⟩

/-- C3 (amended): a failure-free sweep deletes and returns exactly the
records with `garbageCollectAt` strictly earlier than `now` and no others,
and an immediate second sweep with no new records returns an empty set. -/
theorem gc_sweep_strictly_expired_characterization (db : DB) (now : UnixTime)
    (hids : (db.records.map Upload.id).Nodup) :
    RunDatabaseGarbageCollection db now none (fun _ => none) =
      .ok ({ records := db.records.filter (fun v => !decide (v.garbageCollectDate < now)),
             nextId := db.nextId },
           db.records.filter (fun v => decide (v.garbageCollectDate < now)), []) ∧
    ∀ db2 deleted msgs,
      RunDatabaseGarbageCollection db now none (fun _ => none) = .ok (db2, deleted, msgs) →
      RunDatabaseGarbageCollection db2 now none (fun _ => none) = .ok (db2, [], []) := by
  have hmain : RunDatabaseGarbageCollection db now none (fun _ => none) =
      .ok ({ records := db.records.filter (fun v => !decide (v.garbageCollectDate < now)),
             nextId := db.nextId },
           db.records.filter (fun v => decide (v.garbageCollectDate < now)), []) := by
    unfold RunDatabaseGarbageCollection
    rw [gcLoop_no_failures]
    have hrec : db.records.filter (fun r =>
        (db.records.filter (fun v => decide (v.garbageCollectDate < now))).all
          (fun v => r.id != v.id)) =
        db.records.filter (fun v => !decide (v.garbageCollectDate < now)) := by
      apply List.filter_congr
      intro r hr
      by_cases hexp : r.garbageCollectDate < now
      · have hrmem : r ∈ db.records.filter (fun v => decide (v.garbageCollectDate < now)) :=
          List.mem_filter.mpr ⟨hr, by simpa using hexp⟩
        simp only [hexp, decide_True, Bool.not_true]
        rw [Bool.eq_false_iff]
        intro hall
        have := List.all_eq_true.mp hall r hrmem
        simp at this
      · simp only [hexp, decide_False, Bool.not_false]
        rw [List.all_eq_true]
        intro v hvmem
        obtain ⟨hvrec, hvexp⟩ := List.mem_filter.mp hvmem
        rw [bne_iff_ne]
        intro heq
        have hrv : r = v := List.inj_on_of_nodup_map hids hr hvrec heq
        rw [← hrv] at hvexp
        simp [hexp] at hvexp
    rw [hrec]
    rfl
  refine ⟨hmain, ?_⟩
  intro db2 deleted msgs heq
  rw [hmain] at heq
  simp only [Except.ok.injEq, Prod.mk.injEq] at heq
  obtain ⟨hdb2, -, -⟩ := heq
  rw [← hdb2]
  apply gc_sweep_no_expired
  intro v hv
  obtain ⟨-, hb⟩ := List.mem_filter.mp hv
  simpa using hb

/-- Witness for C3 (amended) at the one-record ledger `dbQm` and `now = 1000`:
the record, strictly expired, is deleted and returned. -/
theorem gc_sweep_strictly_expired_characterization_witness :
    RunDatabaseGarbageCollection dbQm 1000 none (fun _ => none) =
      .ok ({ records := dbQm.records.filter (fun v => !decide (v.garbageCollectDate < 1000)),
             nextId := dbQm.nextId },
           dbQm.records.filter (fun v => decide (v.garbageCollectDate < 1000)), []) :=
  (gc_sweep_strictly_expired_characterization dbQm 1000 (by decide)).1

/-- C2 counterexample: a sweep over `dbQm` at time 1000 deletes one ledger
record but publishes an empty list of removal intents, so the deleted record
has no corresponding removal message. -/
theorem gc_sweep_deleted_without_removal_intent :
    RunDatabaseGarbageCollection dbQm 1000 none (fun _ => none) =
      .ok ({ records := [], nextId := 2 }, [recQm], []) := rfl

/-- C2 (amended): the garbage-collection sweep publishes no unpin/removal
intent at all; every successful run returns an empty message list, whatever
it deletes. -/
theorem gc_sweep_publishes_nothing (db : DB) (now : UnixTime) (fe : Option String)
    (de : Upload → Option String) (db2 : DB) (deleted : List Upload)
    (msgs : List QueueMessage)
    (hok : RunDatabaseGarbageCollection db now fe de = .ok (db2, deleted, msgs)) :
    msgs = [] := by
  unfold RunDatabaseGarbageCollection at hok
  cases fe with
  | some e => simp at hok
  | none =>
    cases hg : gcLoop now de db.records db [] with
    | error e => rw [hg] at hok; simp at hok
    | ok p =>
      rw [hg] at hok
      simp only [Except.ok.injEq, Prod.mk.injEq] at hok
      exact hok.2.2.symm

/-- Witness for C2 (amended): the sweep of `dbQm` at time 1000 succeeds and
its published-message list is empty. -/
theorem gc_sweep_publishes_nothing_witness : ([] : List QueueMessage) = [] :=
  gc_sweep_publishes_nothing dbQm 1000 none (fun _ => none)
    { records := [], nextId := 2 } [recQm] [] rfl

/-- If some strictly-expired snapshot record has a failing delete, the sweep
loop ends in an error. -/
theorem gcLoop_error_of_mem (now : UnixTime) (de : Upload → Option String)
    (l : List Upload) : ∀ (db : DB) (acc : List Upload) (v : Upload),
    v ∈ l → v.garbageCollectDate < now → de v ≠ none →
    ∃ e, gcLoop now de l db acc = .error e := by
  induction l with
  | nil =>
    intro db acc v hv
    exact absurd hv (List.not_mem_nil v)
  | cons x rest ih =>
    intro db acc v hv hexp hfail
    rw [gcLoop]
    by_cases hx : x.garbageCollectDate < now
    · rw [if_pos hx]
      cases hde : de x with
      | some e => exact ⟨e, rfl⟩
      | none =>
        rcases List.mem_cons.mp hv with rfl | hv2
        · exact absurd hde hfail
        · exact ih (dbDeleteById db x.id) (acc ++ [x]) v hv2 hexp hfail
    · rw [if_neg hx]
      rcases List.mem_cons.mp hv with rfl | hv2
      · exact absurd hexp hx
      · exact ih db acc v hv2 hexp hfail

/-- Ledger rows for the abort-on-failure scenario: both strictly expired at
time 1000, deletion of the first fails. -/
def recDelFails : Upload :=
  { id := 1
    hash := "QmFails"
    uploadType := "pin"
    name := ""
    networkName := "public"
    holdTimeInMonths := 1
    userName := "alice"
    garbageCollectDate := 10
    userNames := ["alice"] }

/-- Second expired row, whose deletion would succeed. -/
def recDelOk : Upload :=
  { id := 2
    hash := "QmAlsoExpired"
    uploadType := "pin"
    name := ""
    networkName := "public"
    holdTimeInMonths := 1
    userName := "bob"
    garbageCollectDate := 20
    userNames := ["bob"] }

/-- A ledger with the two expired rows. -/
def dbTwoExpired : DB := { records := [recDelFails, recDelOk], nextId := 3 }

/-- Delete failure oracle: deleting the row with id 1 fails. -/
def delFailOnFirst : Upload → Option String :=
  fun v => if v.id == 1 then some "delete failed" else none

/-- C6 counterexample: with two strictly-expired records and a delete failure
on the first, the sweep aborts with the error instead of continuing and
returning the remaining expired record. -/
theorem gc_sweep_aborts_on_first_delete_failure :
    recDelFails.garbageCollectDate < 1000 ∧
    recDelOk.garbageCollectDate < 1000 ∧
    RunDatabaseGarbageCollection dbTwoExpired 1000 none delFailOnFirst =
      .error "delete failed" := by
  exact ⟨by decide, by decide, rfl⟩

/-- C6 (amended): a failure to delete one strictly-expired record is fatal to
the whole sweep: whenever any strictly-expired record's delete fails, the
sweep returns an error and no record list. -/
theorem gc_sweep_delete_failure_aborts (db : DB) (now : UnixTime)
    (fe : Option String) (de : Upload → Option String) (v : Upload)
    (hmem : v ∈ db.records) (hexp : v.garbageCollectDate < now)
    (hfail : de v ≠ none) :
    sweepFailed (RunDatabaseGarbageCollection db now fe de) = true := by
  cases fe with
  | some e => rfl
  | none =>
    unfold RunDatabaseGarbageCollection
    obtain ⟨e, he⟩ := gcLoop_error_of_mem now de db.records db [] v hmem hexp hfail
    rw [he]
    rfl

/-- Witness for C6 (amended) on the two-record ledger with a failing first
delete. -/
theorem gc_sweep_delete_failure_aborts_witness :
    sweepFailed (RunDatabaseGarbageCollection dbTwoExpired 1000 none delFailOnFirst) = true :=
  gc_sweep_delete_failure_aborts dbTwoExpired 1000 none delFailOnFirst recDelFails
    (by decide) (by decide) (by decide)

/-- Error-log constants of the api package (part_000). -/
def PrivateNetworkAccessError : String := "invalid access to private netowrk"

/-- Log constant for `queue.Initialize` failures. -/
def QueueInitializationError : String := "failed to initialize queue"

/-- Log constant for queue publish failures. -/
def QueuePublishError : String := "failed to publish message to queue"

/-- Log constant for `GetAPIURLByName` failures. -/
def APIURLCheckError : String := "failed to get api url"

/-- Log constant for `rtfs.Initialize` failures. -/
def IPFSConnectionError : String := "failed to connect to ipfs"

/-- Log constant for `ipfsManager.Add` failures. -/
def IPFSAddError : String := "failed to add file to ipfs"

/-- Log constant for `fileHandler.Open` failures. -/
def FileOpenError : String := "failed to open file"

/-- Log constant for minio connection failures. -/
def MinioConnectionError : String := "failed to connect to minio"

/-- Log constant for minio put failures. -/
def MinioPutError : String := "failed to store object in minio"

/-- Modelled from the spec: the queue-name constants of the queue package are
not under src/; only their use sites are.  The claims depend only on the
names being fixed strings, not on their values. -/
def IpfsPinQueue : String := "ipfs-pin-queue"

/-- Queue name for pin-removal intents (modelled, see `IpfsPinQueue`). -/
def IpfsPinRemovalQueue : String := "ipfs-pin-removal-queue"

/-- Queue name for file-upload intents (modelled, see `IpfsPinQueue`). -/
def IpfsFileQueue : String := "ipfs-file-queue"

/-- Queue name for database file adds (modelled, see `IpfsPinQueue`). -/
def DatabaseFileAddQueue : String := "database-file-add-queue"

/-- Queue name for cluster pins (modelled, see `IpfsPinQueue`). -/
def IpfsClusterPinQueue : String := "ipfs-cluster-pin-queue"

/-- Bucket name constant for advanced file uploads (modelled, not under
src/). -/
def FilesUploadBucket : String := "filesuploadbucket"

/-- How a handler terminates: `ok` models `Respond(c, http.StatusOK, ...)`,
`failOnError` models `FailOnError` (and `FailNotAuthorized` is not needed by
the embedded handlers' reachable branches under the claims),
`failOnServerError` models `FailOnServerError`, and `failNoExistPostForm`
models `FailNoExistPostForm`.  Error payload strings are not modelled; the
claims depend only on the failure channel. -/
inductive Response where
  | ok (body : String)
  | failOnError
  | failOnServerError
  | failNoExistPostForm (field : String)
deriving Repr, DecidableEq

/-- What a handler invocation did: its HTTP-level outcome, the queue messages
the broker accepted, the error constants passed to `api.LogError`, and the
uploads ledger after the call. -/
structure HandlerOutcome where
  response : Response
  published : List QueueMessage
  logged : List String
  db : DB
deriving Repr, DecidableEq

/-- The handlers' external collaborators, each modelled at its interface:
`accessOk` is `CheckAccessForPrivateNetwork` (user, network), `cidValid` is
`gocid.Decode` succeeding, `parseInt64` is `strconv.ParseInt(_, 10, 64)`,
`queueInitOk` is `queue.Initialize` keyed by queue name, `publishOk` is the
broker accepting a given message, `apiURL` is `GetAPIURLByName`,
`ipfsInitOk` is `rtfs.Initialize`, `ipfsAddResult` the hash returned by
`ipfsManager.Add`, `minioInitOk`/`minioPutOk` the minio manager,
`fileSizeOk` is `api.FileSizeCheck`, `fileOpenOk` is `fileHandler.Open`, and
`randString` the random object-name suffix. -/
structure Env where
  accessOk : String → String → Bool
  cidValid : String → Bool
  parseInt64 : String → Option Int
  queueInitOk : String → Bool
  publishOk : QueueMessage → Bool
  apiURL : String → Option String
  ipfsInitOk : Bool
  ipfsAddResult : Option String
  minioInitOk : Bool
  minioPutOk : Bool
  fileSizeOk : Int → Bool
  fileOpenOk : Bool
  randString : String

/-- An inbound request: the authenticated user, the `:hash` path parameter,
the optional `network_name` and `hold_time` post-form values, and the
optional uploaded file (modelled by its size). -/
structure Request where
  username : String
  hash : String
  networkName : Option String
  holdTime : Option String
  file : Option Int

/-- Embeds `pinToHostedIPFSNetwork` (part_001 lines 24-82): network form → access
gate → CID validation → hold-time form and parse → queue init → publish
`IPFSPin` with the pin exchange. -/
def pinToHostedIPFSNetwork (env : Env) (db : DB) (req : Request) : HandlerOutcome :=
  match req.networkName with
  | none => { response := .failNoExistPostForm "network_name", published := [], logged := [], db := db }
  | some networkName =>
    if env.accessOk req.username networkName = false then
      { response := .failOnError, published := [], logged := [PrivateNetworkAccessError], db := db }
    else if env.cidValid req.hash = false then
      { response := .failOnError, published := [], logged := [], db := db }
    else match req.holdTime with
    | none => { response := .failNoExistPostForm "hold_time", published := [], logged := [], db := db }
    | some holdTime =>
      match env.parseInt64 holdTime with
      | none => { response := .failOnError, published := [], logged := [], db := db }
      | some holdTimeInt =>
        if env.queueInitOk IpfsPinQueue = false then
          { response := .failOnServerError, published := [], logged := [QueueInitializationError], db := db }
        else
          let ip := QueueMessage.ipfsPin req.hash networkName req.username holdTimeInt
          if env.publishOk ip = false then
            { response := .failOnServerError, published := [], logged := [QueuePublishError], db := db }
          else
            { response := .ok "content pin request sent to backend", published := [ip], logged := [], db := db }

/-- Embeds `removePinFromLocalHostForHostedIPFSNetwork` (part_001 lines 384-425):
CID validation → network form → access gate → queue init → publish
`IPFSPinRemoval` with the pin-removal exchange. -/
def removePinFromLocalHostForHostedIPFSNetwork (env : Env) (db : DB) (req : Request) :
    HandlerOutcome :=
  if env.cidValid req.hash = false then
    { response := .failOnError, published := [], logged := [], db := db }
  else match req.networkName with
  | none => { response := .failNoExistPostForm "network_name", published := [], logged := [], db := db }
  | some networkName =>
    if env.accessOk req.username networkName = false then
      { response := .failOnError, published := [], logged := [PrivateNetworkAccessError], db := db }
    else if env.queueInitOk IpfsPinRemovalQueue = false then
      { response := .failOnError, published := [], logged := [QueueInitializationError], db := db }
    else
      let rm := QueueMessage.ipfsPinRemoval req.hash networkName req.username
      if env.publishOk rm = false then
        { response := .failOnError, published := [], logged := [QueuePublishError], db := db }
      else
        { response := .ok "pin removal sent to backend", published := [rm], logged := [], db := db }

/-- Embeds `addFileToHostedIPFSNetwork` (part_001 lines 224-334): network form →
access gate → hold-time form and parse → network api url → ipfs init →
queue init → file form, size check, open → ipfs add → publish
`DatabaseFileAdd` → second queue init → publish `IPFSPin`. -/
def addFileToHostedIPFSNetwork (env : Env) (db : DB) (req : Request) : HandlerOutcome :=
  match req.networkName with
  | none => { response := .failNoExistPostForm "network_name", published := [], logged := [], db := db }
  | some networkName =>
    if env.accessOk req.username networkName = false then
      { response := .failOnError, published := [], logged := [PrivateNetworkAccessError], db := db }
    else match req.holdTime with
    | none => { response := .failNoExistPostForm "hold_time", published := [], logged := [], db := db }
    | some holdTime =>
      match env.parseInt64 holdTime with
      | none => { response := .failOnError, published := [], logged := [], db := db }
      | some holdTimeInt =>
        match env.apiURL networkName with
        | none => { response := .failOnError, published := [], logged := [APIURLCheckError], db := db }
        | some _ =>
          if env.ipfsInitOk = false then
            { response := .failOnError, published := [], logged := [IPFSConnectionError], db := db }
          else if env.queueInitOk DatabaseFileAddQueue = false then
            { response := .failOnError, published := [], logged := [QueueInitializationError], db := db }
          else match req.file with
          | none => { response := .failOnError, published := [], logged := [], db := db }
          | some size =>
            if env.fileSizeOk size = false then
              { response := .failOnError, published := [], logged := [], db := db }
            else if env.fileOpenOk = false then
              { response := .failOnError, published := [], logged := [FileOpenError], db := db }
            else match env.ipfsAddResult with
            | none => { response := .failOnError, published := [], logged := [IPFSAddError], db := db }
            | some resp =>
              let dfa := QueueMessage.databaseFileAdd resp holdTimeInt req.username networkName
              if env.publishOk dfa = false then
                { response := .failOnError, published := [], logged := [QueuePublishError], db := db }
              else if env.queueInitOk IpfsPinQueue = false then
                { response := .failOnError, published := [dfa], logged := [QueueInitializationError], db := db }
              else
                let pin := QueueMessage.ipfsPin resp networkName req.username holdTimeInt
                if env.publishOk pin = false then
                  { response := .failOnError, published := [dfa], logged := [QueuePublishError], db := db }
                else
                  { response := .ok resp, published := [dfa, pin], logged := [], db := db }

/-- Embeds `addFileToHostedIPFSNetworkAdvanced` (part_001 lines 133-221): network
form → access gate → hold-time form (kept as a string) → minio init → file
form, size check, open → minio put → queue init → publish `IPFSFile`. -/
def addFileToHostedIPFSNetworkAdvanced (env : Env) (db : DB) (req : Request) :
    HandlerOutcome :=
  match req.networkName with
  | none => { response := .failNoExistPostForm "network_name", published := [], logged := [], db := db }
  | some networkName =>
    if env.accessOk req.username networkName = false then
      { response := .failOnError, published := [], logged := [PrivateNetworkAccessError], db := db }
    else match req.holdTime with
    | none => { response := .failNoExistPostForm "hold_time", published := [], logged := [], db := db }
    | some holdTime =>
      if env.minioInitOk = false then
        { response := .failOnError, published := [], logged := [MinioConnectionError], db := db }
      else match req.file with
      | none => { response := .failOnError, published := [], logged := [], db := db }
      | some size =>
        if env.fileSizeOk size = false then
          { response := .failOnError, published := [], logged := [], db := db }
        else if env.fileOpenOk = false then
          { response := .failOnError, published := [], logged := [FileOpenError], db := db }
        else if env.minioPutOk = false then
          { response := .failOnError, published := [], logged := [MinioPutError], db := db }
        else
          let ifp := QueueMessage.ipfsFile FilesUploadBucket (req.username ++ env.randString)
            req.username networkName holdTime
          if env.queueInitOk IpfsFileQueue = false then
            { response := .failOnError, published := [], logged := [QueueInitializationError], db := db }
          else if env.publishOk ifp = false then
            { response := .failOnError, published := [], logged := [QueuePublishError], db := db }
          else
            { response := .ok "file upload request sent to backend", published := [ifp], logged := [], db := db }

/-- Embeds `pinHashToCluster` (routes_rtfs_cluster.go lines 15-62): CID validation →
hold-time form and parse → queue init → publish `IPFSClusterPin` for the
public network.  This route has no private-network access gate. -/
def pinHashToCluster (env : Env) (db : DB) (req : Request) : HandlerOutcome :=
  if env.cidValid req.hash = false then
    { response := .failOnError, published := [], logged := [], db := db }
  else match req.holdTime with
  | none => { response := .failNoExistPostForm "hold_time", published := [], logged := [], db := db }
  | some holdTime =>
    match env.parseInt64 holdTime with
    | none => { response := .failOnError, published := [], logged := [], db := db }
    | some holdTimeInt =>
      if env.queueInitOk IpfsClusterPinQueue = false then
        { response := .failOnError, published := [], logged := [QueueInitializationError], db := db }
      else
        let cp := QueueMessage.ipfsClusterPin req.hash "public" req.username holdTimeInt
        if env.publishOk cp = false then
          { response := .failOnError, published := [], logged := [QueuePublishError], db := db }
        else
          { response := .ok "cluster pin request sent to backend", published := [cp], logged := [], db := db }

/-- C7: in the private-network pin, pin-removal and file-add handlers, a
failed access check makes the handler return a failure without publishing any
queue message or touching the uploads ledger; and any invocation of these
handlers that published at all had a present `network_name` form value whose
access check passed, i.e. the gate runs before every publish. -/
theorem private_handlers_access_gate_before_publish
    (env : Env) (db : DB) (req : Request) (n : String)
    (hn : req.networkName = some n)
    (hdenied : env.accessOk req.username n = false) :
    ((pinToHostedIPFSNetwork env db req).published = [] ∧
     (pinToHostedIPFSNetwork env db req).db = db ∧
     (pinToHostedIPFSNetwork env db req).response = .failOnError) ∧
    ((removePinFromLocalHostForHostedIPFSNetwork env db req).published = [] ∧
     (removePinFromLocalHostForHostedIPFSNetwork env db req).db = db ∧
     (removePinFromLocalHostForHostedIPFSNetwork env db req).response = .failOnError) ∧
    ((addFileToHostedIPFSNetwork env db req).published = [] ∧
     (addFileToHostedIPFSNetwork env db req).db = db ∧
     (addFileToHostedIPFSNetwork env db req).response = .failOnError) ∧
    ((addFileToHostedIPFSNetworkAdvanced env db req).published = [] ∧
     (addFileToHostedIPFSNetworkAdvanced env db req).db = db ∧
     (addFileToHostedIPFSNetworkAdvanced env db req).response = .failOnError) ∧
    (∀ (e2 : Env) (d2 : DB) (r2 : Request),
      (pinToHostedIPFSNetwork e2 d2 r2).published ≠ [] →
      ∃ m, r2.networkName = some m ∧ e2.accessOk r2.username m = true) ∧
    (∀ (e2 : Env) (d2 : DB) (r2 : Request),
      (removePinFromLocalHostForHostedIPFSNetwork e2 d2 r2).published ≠ [] →
      ∃ m, r2.networkName = some m ∧ e2.accessOk r2.username m = true) ∧
    (∀ (e2 : Env) (d2 : DB) (r2 : Request),
      (addFileToHostedIPFSNetwork e2 d2 r2).published ≠ [] →
      ∃ m, r2.networkName = some m ∧ e2.accessOk r2.username m = true) ∧
    (∀ (e2 : Env) (d2 : DB) (r2 : Request),
      (addFileToHostedIPFSNetworkAdvanced e2 d2 r2).published ≠ [] →
      ∃ m, r2.networkName = some m ∧ e2.accessOk r2.username m = true) := by
  refine ⟨?_, ?_, ?_, ?_, ?_, ?_, ?_, ?_⟩
  · simp [pinToHostedIPFSNetwork, hn, hdenied]
  · cases hcid : env.cidValid req.hash <;>
      simp [removePinFromLocalHostForHostedIPFSNetwork, hn, hdenied, hcid]
  · simp [addFileToHostedIPFSNetwork, hn, hdenied]
  · simp [addFileToHostedIPFSNetworkAdvanced, hn, hdenied]
  · intro e2 d2 r2 hpub
    cases hnn : r2.networkName with
    | none => simp [pinToHostedIPFSNetwork, hnn] at hpub
    | some m =>
      cases hacc : e2.accessOk r2.username m with
      | false => simp [pinToHostedIPFSNetwork, hnn, hacc] at hpub
      | true => exact ⟨m, rfl, hacc⟩
  · intro e2 d2 r2 hpub
    cases hnn : r2.networkName with
    | none =>
      cases hcid : e2.cidValid r2.hash <;>
        simp [removePinFromLocalHostForHostedIPFSNetwork, hnn, hcid] at hpub
    | some m =>
      cases hacc : e2.accessOk r2.username m with
      | false =>
        cases hcid : e2.cidValid r2.hash <;>
          simp [removePinFromLocalHostForHostedIPFSNetwork, hnn, hacc, hcid] at hpub
      | true => exact ⟨m, rfl, hacc⟩
  · intro e2 d2 r2 hpub
    cases hnn : r2.networkName with
    | none => simp [addFileToHostedIPFSNetwork, hnn] at hpub
    | some m =>
      cases hacc : e2.accessOk r2.username m with
      | false => simp [addFileToHostedIPFSNetwork, hnn, hacc] at hpub
      | true => exact ⟨m, rfl, hacc⟩
  · intro e2 d2 r2 hpub
    cases hnn : r2.networkName with
    | none => simp [addFileToHostedIPFSNetworkAdvanced, hnn] at hpub
    | some m =>
      cases hacc : e2.accessOk r2.username m with
      | false => simp [addFileToHostedIPFSNetworkAdvanced, hnn, hacc] at hpub
      | true => exact ⟨m, rfl, hacc⟩

/-- Environment in which every access check is denied and everything else
succeeds. -/
def envDenyAll : Env :=
  { accessOk := fun _ _ => false
    cidValid := fun _ => true
    parseInt64 := fun _ => some 1
    queueInitOk := fun _ => true
    publishOk := fun _ => true
    apiURL := fun _ => some "apiurl"
    ipfsInitOk := true
    ipfsAddResult := some "QmAdded"
    minioInitOk := true
    minioPutOk := true
    fileSizeOk := fun _ => true
    fileOpenOk := true
    randString := "rand" }

/-- A fully populated pin request for the private network "testnet". -/
def reqPin : Request :=
  { username := "alice"
    hash := "QmHash"
    networkName := some "testnet"
    holdTime := some "3"
    file := some 10 }

/-- Witness for C7: with access denied on "testnet", the pin handler
publishes nothing, leaves the ledger unchanged and fails. -/
theorem private_handlers_access_gate_before_publish_witness :
    (pinToHostedIPFSNetwork envDenyAll dbQm reqPin).published = [] ∧
    (pinToHostedIPFSNetwork envDenyAll dbQm reqPin).db = dbQm ∧
    (pinToHostedIPFSNetwork envDenyAll dbQm reqPin).response = .failOnError :=
  (private_handlers_access_gate_before_publish envDenyAll dbQm reqPin "testnet" rfl rfl).1

/-- C8: a request whose content identifier fails CID decoding is rejected by
the pin, pin-removal and cluster-pin handlers with a `FailOnError` response,
nothing logged as a server error, no queue message published and the ledger
untouched (for the private pin handler, on a request that reaches CID
validation, i.e. whose network form is present and access check passes). -/
theorem malformed_cid_validation_error_no_publish
    (env : Env) (db : DB) (req : Request) (n : String)
    (hbad : env.cidValid req.hash = false)
    (hn : req.networkName = some n)
    (hok : env.accessOk req.username n = true) :
    pinToHostedIPFSNetwork env db req =
      { response := .failOnError, published := [], logged := [], db := db } ∧
    removePinFromLocalHostForHostedIPFSNetwork env db req =
      { response := .failOnError, published := [], logged := [], db := db } ∧
    pinHashToCluster env db req =
      { response := .failOnError, published := [], logged := [], db := db } := by
  refine ⟨?_, ?_, ?_⟩
  · simp [pinToHostedIPFSNetwork, hn, hok, hbad]
  · simp [removePinFromLocalHostForHostedIPFSNetwork, hbad]
  · simp [pinHashToCluster, hbad]

/-- Environment in which CID decoding fails and everything else succeeds. -/
def envBadCid : Env :=
  { accessOk := fun _ _ => true
    cidValid := fun _ => false
    parseInt64 := fun _ => some 1
    queueInitOk := fun _ => true
    publishOk := fun _ => true
    apiURL := fun _ => some "apiurl"
    ipfsInitOk := true
    ipfsAddResult := some "QmAdded"
    minioInitOk := true
    minioPutOk := true
    fileSizeOk := fun _ => true
    fileOpenOk := true
    randString := "rand" }

/-- Witness for C8: an authorized pin request with an undecodable CID is
rejected without logging or publishing. -/
theorem malformed_cid_validation_error_no_publish_witness :
    pinToHostedIPFSNetwork envBadCid dbQm reqPin =
      { response := .failOnError, published := [], logged := [], db := dbQm } :=
  (malformed_cid_validation_error_no_publish envBadCid dbQm reqPin "testnet" rfl rfl rfl).1

/-- A gorm query condition, as used by the upload queries: equality on the
hash column, or on hash and user name. -/
inductive Cond where
  | hashEq (hash : String)
  | hashUserEq (hash username : String)
deriving Repr, DecidableEq

/-- Whether a row satisfies a condition. -/
def condMatches (c : Cond) (u : Upload) : Bool :=
  match c with
  | .hashEq hash => u.hash == hash
  | .hashUserEq hash username => u.hash == hash && u.userName == username

/-- A `*gorm.DB` value as a query scope: the underlying table plus the
conditions accumulated so far by `Where` calls. -/
structure GormScope where
  db : DB
  conds : List Cond
deriving Repr, DecidableEq

/-- gorm `Where`: returns a scope with the condition appended; it does not
re-run any query that already executed. -/
def scopeWhere (s : GormScope) (c : Cond) : GormScope :=
  { s with conds := s.conds ++ [c] }

/-- gorm `Find(&uploads)`: executes immediately, filling the slice with the
rows matching the conditions accumulated so far, and returns the scope for
further chaining. -/
def scopeFind (s : GormScope) : List Upload × GormScope :=
  (s.db.records.filter (fun u => s.conds.all (fun c => condMatches c u)), s)

/-- Embeds `UploadManager.FindUploadsByHash`: the source runs
`um.DB.Find(&uploads).Where("hash = ?", hash)` — `Find` executes on the bare
handle before `Where` attaches the condition, so the condition lands on the
returned scope after the query has already filled `uploads`. -/
def FindUploadsByHash (db : DB) (hash : String) : List Upload :=
  let found := scopeFind { db := db, conds := [] }
  let _chained := scopeWhere found.2 (Cond.hashEq hash)
  found.1

/-- Embeds `UploadManager.GetUploadByHashForUser`: same chaining as
`FindUploadsByHash`, with the hash-and-user condition attached after `Find`
has executed. -/
def GetUploadByHashForUser (db : DB) (hash : String) (username : String) : List Upload :=
  let found := scopeFind { db := db, conds := [] }
  let _chained := scopeWhere found.2 (Cond.hashUserEq hash username)
  found.1

/-- C10: `FindUploadsByHash` and `GetUploadByHashForUser` return every row of
the table — the `Where` filter is chained after `Find` has executed — so
their results do not depend on the hash or username arguments. -/
theorem find_uploads_by_hash_ignores_filters (db : DB) (h1 h2 u1 u2 : String) :
    FindUploadsByHash db h1 = db.records ∧
    FindUploadsByHash db h1 = FindUploadsByHash db h2 ∧
    GetUploadByHashForUser db h1 u1 = db.records ∧
    GetUploadByHashForUser db h1 u1 = GetUploadByHashForUser db h2 u2 := by
  refine ⟨?_, rfl, ?_, rfl⟩
  · simp [FindUploadsByHash, scopeFind, List.filter_true]
  · simp [GetUploadByHashForUser, scopeFind, List.filter_true]

end Temporal
